import Mathlib

/-!
Verification of the LensLogic document-extraction workspace: a shallow
embedding of its data model (src/types.ts), its spreadsheet sync engine
(src/unnamed/part_002, `exportToGoogleSheet`), and its session store /
export handlers (src/App.tsx), together with proofs of the frozen claims
about those components.
-/

namespace FACU

/-! ## Data model (ported from src/types.ts) -/

/-- `AppStatus` enum from src/types.ts. -/
inductive AppStatus
  | IDLE
  | ANALYZING
  | SUCCESS
  | ERROR
  | EXPORTING
deriving DecidableEq

/-- A field value is `string | number` in src/types.ts. -/
inductive FieldValue
  | str (s : String)
  | num (n : Int)
deriving DecidableEq

/-- JavaScript `String(f.value)` conversion applied by the export paths. -/
def FieldValue.toDisplayString : FieldValue → String
  | .str s => s
  | .num n => toString n

/-- `Field` from src/types.ts: `{label: string, value: string | number}`. -/
structure Field where
  label : String
  value : FieldValue
deriving DecidableEq

/-- `TableRow` from src/types.ts: `{values: string[]}`. -/
structure TableRow where
  values : List String
deriving DecidableEq

/-- `Table` from src/types.ts: `{name, headers: string[], rows: TableRow[]}`. -/
structure Table where
  name : String
  headers : List String
  rows : List TableRow
deriving DecidableEq

/-- `ExtractedData` from src/types.ts: `{fields: Field[], tables: Table[]}`. -/
structure ExtractedData where
  fields : List Field
  tables : List Table
deriving DecidableEq

/-- `ProcessedResult` from src/types.ts (one session tab). -/
structure ProcessedResult where
  id : String
  name : String
  image : String
  data : ExtractedData
  status : AppStatus
  errorMessage : Option String
deriving DecidableEq

/-! ## Sync-engine flattening (src/unnamed/part_002, exportToGoogleSheet,
step "1. Prepare Data for Export", lines 519-537) -/

/-- `const globalHeaders = data.fields.map(f => f.label)`. -/
def globalHeaders (data : ExtractedData) : List String :=
  data.fields.map Field.label

/-- `const globalValues = data.fields.map(f => String(f.value))`. -/
def globalValues (data : ExtractedData) : List String :=
  data.fields.map (fun f => f.value.toDisplayString)

/-- The `while (rowVals.length < primaryTable.headers.length) rowVals.push("")`
padding loop: append empty strings until the list is at least `n` long. -/
def padTo (vals : List String) (n : Nat) : List String :=
  vals ++ List.replicate (n - vals.length) ""

/-- `finalHeaders`: field labels, extended with the primary (first) table's
headers when at least one table exists. -/
def finalHeaders (data : ExtractedData) : List String :=
  match data.tables with
  | [] => globalHeaders data
  | primaryTable :: _ => globalHeaders data ++ primaryTable.headers

/-- `rowsToAppend`: one row per primary-table row (field values followed by
the padded table-row values), or a single row of field values when no table
exists.  The source's `forEach`/`push` loop is the map below. -/
def rowsToAppend (data : ExtractedData) : List (List String) :=
  match data.tables with
  | [] => [globalValues data]
  | primaryTable :: _ =>
      primaryTable.rows.map (fun tableRow =>
        globalValues data ++ padTo tableRow.values primaryTable.headers.length)

/-! ## Header union (src/unnamed/part_002, step "3. Compute Header Union",
lines 562-571) -/

/-- `const masterHeaders = [...existingHeaders]; finalHeaders.forEach(h => {
if (!masterHeaders.includes(h)) masterHeaders.push(h) })`. -/
def masterUnion (existingHeaders finalHdrs : List String) : List String :=
  finalHdrs.foldl (fun m h => if h ∈ m then m else m ++ [h]) existingHeaders

/-! ## Row re-projection (src/unnamed/part_002, step "4. Map Values to
Master Headers Order", lines 592-598) -/

/-- One re-projected row: for each master header, `finalHeaders.indexOf`
locates the column locally and the local row is read there, else `""`.
(`localRow[localIndex]` is always in range for rows produced by
`rowsToAppend`, so the `getD` default is never what the source reads.) -/
def reproject (masterHeaders finalHdrs localRow : List String) : List String :=
  masterHeaders.map (fun header =>
    match List.indexOf? header finalHdrs with
    | some localIndex => localRow.getD localIndex ""
    | none => "")

/-! ## Full sync-engine pipeline (src/unnamed/part_002, lines 473-621),
with the remote spreadsheet API abstracted as a response oracle. -/

/-- One run's worth of remote-API responses, supplied by the environment:
metadata GET, addSheet batchUpdate, header-row GET, header-row PUT, append
POST.  `headerValues` is the optional `values` array of the header GET. -/
structure RemoteResponses where
  metaOk : Bool
  metaErrorMessage : Option String
  sheetTitles : List String
  addSheetOk : Bool
  headerGetOk : Bool
  headerValues : Option (List (List String))
  putOk : Bool
  appendOk : Bool
  appendErrorMessage : Option String
deriving DecidableEq

/-- What a successful run produced: whether a sheet-creation request and a
header-row overwrite were issued, the reconciled header row, and the rows
sent to the append call. -/
structure ExportOutcome where
  createdSheet : Bool
  wroteHeaderRow : Bool
  masterHeaders : List String
  appendedRows : List (List String)
deriving DecidableEq

/-- `exportToGoogleSheet` from src/unnamed/part_002: throws ( `.error` ) on
missing credentials, on a non-ok metadata fetch, and on a non-ok append;
the addSheet and header-PUT responses are never inspected, and a failed
header GET is treated as "no existing headers".  `wroteHeaderRow` models
the source's `headersChanged` flag, which is set exactly when the union
grew past `existingHeaders`. -/
def exportToGoogleSheet (spreadsheetId accessToken : String)
    (data : ExtractedData) (sheetName : String) (resp : RemoteResponses) :
    Except String ExportOutcome :=
  if spreadsheetId = "" ∨ accessToken = "" then
    .error "Missing Spreadsheet ID or Access Token"
  else if resp.metaOk = false then
    .error (resp.metaErrorMessage.getD
      "Failed to access spreadsheet. Check ID and permissions.")
  else
    let createdSheet := decide (sheetName ∉ resp.sheetTitles)
    let fHeaders := finalHeaders data
    let rows := rowsToAppend data
    let existingHeaders :=
      if resp.headerGetOk then (resp.headerValues.getD []).headD [] else []
    let master := masterUnion existingHeaders fHeaders
    let headersChanged := decide (master ≠ existingHeaders)
    let formattedRows := rows.map (fun localRow => reproject master fHeaders localRow)
    if resp.appendOk = false then
      .error (resp.appendErrorMessage.getD "Failed to append row")
    else
      .ok ⟨createdSheet, headersChanged, master, formattedRows⟩

/-! ## CSV export (src/App.tsx, downloadCSV, lines 173-203) -/

/-- CSV header row: field labels, extended with the main table's headers. -/
def csvHeaders (data : ExtractedData) : List String :=
  match data.tables with
  | [] => data.fields.map Field.label
  | mainTable :: _ => data.fields.map Field.label ++ mainTable.headers

/-- CSV data rows: `rows.push([...globalVals, ...r.values])` per main-table
row (note: no padding here), or the single row of field values. -/
def csvRows (data : ExtractedData) : List (List String) :=
  match data.tables with
  | [] => [data.fields.map (fun f => f.value.toDisplayString)]
  | mainTable :: _ =>
      mainTable.rows.map (fun r =>
        data.fields.map (fun f => f.value.toDisplayString) ++ r.values)

/-! ## Session store (src/App.tsx) -/

/-- The App component's state: the results collection, the active tab id,
and the in-memory Google access token. -/
structure AppState where
  results : List ProcessedResult
  activeResultId : Option String
  googleAccessToken : Option String
deriving DecidableEq

/-- The initial state: no results, no active tab, no token. -/
def initState : AppState := ⟨[], none, none⟩

/-- `{ fields: [], tables: [] }`. -/
def emptyData : ExtractedData := ⟨[], []⟩

/-- The `hasData` guard of src/App.tsx line 205, per result. -/
def hasData (r : ProcessedResult) : Bool :=
  decide (0 < r.data.fields.length) || decide (0 < r.data.tables.length)

/-- `updateResult`: map over the collection, replacing the result with the
given id (a no-op when the id is absent). -/
def updateResult (id : String) (f : ProcessedResult → ProcessedResult)
    (st : AppState) : AppState :=
  { st with results := st.results.map (fun r => if r.id = id then f r else r) }

/-- `handleImageSelect` (creation part): append a new `ANALYZING` result
named `Result N` with `N = results.length + 1`, and activate it. -/
def applyUpload (st : AppState) (newId image : String) : AppState :=
  let newResult : ProcessedResult :=
    { id := newId
      name := "Result " ++ toString (st.results.length + 1)
      image := image
      data := emptyData
      status := .ANALYZING
      errorMessage := none }
  { st with results := st.results ++ [newResult], activeResultId := some newId }

/-- Extraction resolved successfully: `updateResult(id, {data, status: SUCCESS})`. -/
def applyExtractOk (st : AppState) (id : String) (d : ExtractedData) : AppState :=
  updateResult id (fun r => { r with data := d, status := .SUCCESS }) st

/-- Extraction failed: `updateResult(id, {status: ERROR, errorMessage})`. -/
def applyExtractErr (st : AppState) (id msg : String) : AppState :=
  updateResult id (fun r => { r with status := .ERROR, errorMessage := some msg }) st

/-- `handleCloseTab`: drop the result; when it was active, activate the last
remaining result (or none when the collection became empty). -/
def applyCloseTab (st : AppState) (id : String) : AppState :=
  let remainingResults := st.results.filter (fun r => decide (r.id ≠ id))
  let newActive :=
    if st.activeResultId = some id then
      match remainingResults.getLast? with
      | some last => some last.id
      | none => none
    else st.activeResultId
  { st with results := remainingResults, activeResultId := newActive }

/-- `handleRenameTab`: `updateResult(id, {name: newName})`. -/
def applyRename (st : AppState) (id newName : String) : AppState :=
  updateResult id (fun r => { r with name := newName }) st

/-- `onSelectTab`: `setActiveResultId(id)`. -/
def applySelect (st : AppState) (id : String) : AppState :=
  { st with activeResultId := some id }

/-- DataEditor's `onChange`: `updateResult(activeResultId, {data: newData})`. -/
def applyEdit (st : AppState) (id : String) (d : ExtractedData) : AppState :=
  updateResult id (fun r => { r with data := d }) st

/-- The "Try Again" button: `updateResult(id, {status: IDLE})`. -/
def applyTryAgain (st : AppState) (id : String) : AppState :=
  updateResult id (fun r => { r with status := .IDLE }) st

/-- The OAuth callback storing an obtained token. -/
def applyConnect (st : AppState) (token : String) : AppState :=
  { st with googleAccessToken := some token }

/-- `handleExportToSheets` before the remote call:
`updateResult(activeResult.id, {status: EXPORTING})`. -/
def applyExportStart (st : AppState) (id : String) : AppState :=
  updateResult id (fun r => { r with status := .EXPORTING }) st

/-- `handleExportToSheets` success path: `updateResult(id, {status: SUCCESS})`. -/
def applyExportOk (st : AppState) (id : String) : AppState :=
  updateResult id (fun r => { r with status := .SUCCESS }) st

/-- JavaScript `hay.includes(needle)` on character lists. -/
def hasSubstr (hay needle : List Char) : Bool :=
  if needle.isPrefixOf hay then true
  else
    match hay with
    | [] => false
    | _ :: t => hasSubstr t needle

/-- JavaScript `s.includes(sub)`. -/
def strIncludes (s sub : String) : Bool :=
  hasSubstr s.toList sub.toList

/-- The auth-failure heuristic of `handleExportToSheets`:
`error.message.includes("401") || error.message.includes("unauthorized")`. -/
def isAuthFailure (msg : String) : Bool :=
  strIncludes msg "401" || strIncludes msg "unauthorized"

/-- `handleExportToSheets` catch block: set the result's status back to
`SUCCESS`; on a 401/unauthorized message additionally clear the token. -/
def applyExportFail (st : AppState) (id msg : String) : AppState :=
  let st1 := updateResult id (fun r => { r with status := .SUCCESS }) st
  if isAuthFailure msg then { st1 with googleAccessToken := none } else st1

/-- The alerts the catch block raises, in order: the failure alert, then the
re-authentication prompt when the message matched the auth heuristic. -/
def exportFailAlerts (msg : String) : List String :=
  ("Export Failed: " ++ msg) ::
    (if isAuthFailure msg then ["Session expired. Please connect again."] else [])

/-- `const activeResult = results.find(r => r.id === activeResultId)`. -/
def activeResult (st : AppState) : Option ProcessedResult :=
  st.results.find? (fun r => decide (st.activeResultId = some r.id))

/-- `const sheetName = activeResult.name` in `handleExportToSheets`. -/
def activeSheetName (st : AppState) : Option String :=
  (activeResult st).map ProcessedResult.name

/-! ## Event system

One constructor per user/network event of src/App.tsx.  Guards record when
the app can emit the event: freshness of `Date.now()`-derived ids; that an
extraction completion targets the (still `ANALYZING`) result whose upload
started it; that the DataEditor only fires `onChange` when the active
result has data; that "Try Again" is only rendered on an `ERROR` result;
and the export button's enabled conditions. -/
inductive Step : AppState → AppState → Prop
  | upload (st : AppState) (newId image : String)
      (hfresh : newId ∉ st.results.map ProcessedResult.id) :
      Step st (applyUpload st newId image)
  | extractOk (st : AppState) (id : String) (d : ExtractedData)
      (hpending : ∀ r ∈ st.results, r.id = id → r.status = .ANALYZING) :
      Step st (applyExtractOk st id d)
  | extractErr (st : AppState) (id msg : String)
      (hpending : ∀ r ∈ st.results, r.id = id → r.status = .ANALYZING) :
      Step st (applyExtractErr st id msg)
  | close (st : AppState) (id : String) :
      Step st (applyCloseTab st id)
  | rename (st : AppState) (id newName : String) :
      Step st (applyRename st id newName)
  | select (st : AppState) (id : String)
      (hmem : id ∈ st.results.map ProcessedResult.id) :
      Step st (applySelect st id)
  | edit (st : AppState) (id : String) (d : ExtractedData)
      (hactive : st.activeResultId = some id)
      (hdata : ∀ r ∈ st.results, r.id = id → hasData r = true) :
      Step st (applyEdit st id d)
  | tryAgain (st : AppState) (id : String)
      (herr : ∀ r ∈ st.results, r.id = id → r.status = .ERROR) :
      Step st (applyTryAgain st id)
  | connect (st : AppState) (token : String) :
      Step st (applyConnect st token)
  | exportStart (st : AppState) (id : String)
      (htok : st.googleAccessToken ≠ none)
      (hactive : st.activeResultId = some id)
      (hguard : ∀ r ∈ st.results, r.id = id →
        hasData r = true ∧ r.status ≠ .EXPORTING) :
      Step st (applyExportStart st id)
  | exportOk (st : AppState) (id : String) :
      Step st (applyExportOk st id)
  | exportFail (st : AppState) (id msg : String) :
      Step st (applyExportFail st id msg)

/-- States reachable from the empty initial state. -/
inductive Reachable : AppState → Prop
  | init : Reachable initState
  | step {st st' : AppState} : Reachable st → Step st st' → Reachable st'

/-- The session-store invariant: result ids are pairwise distinct, the
active id (when set) names a present result, and any result whose status is
`ANALYZING`, `ERROR` or `IDLE` still carries the empty data it was created
with. -/
def StateInv (st : AppState) : Prop :=
  (st.results.map ProcessedResult.id).Nodup ∧
  (∀ i, st.activeResultId = some i → i ∈ st.results.map ProcessedResult.id) ∧
  (∀ r ∈ st.results,
    (r.status = .ANALYZING ∨ r.status = .ERROR ∨ r.status = .IDLE) →
    r.data = emptyData)

/-! ## Specification-side definition for the header-union claim -/

/-- Modelled from the spec's words for the union's appended part: keep each
string's first occurrence, dropping later duplicates. -/
def firstDedup : List String → List String
  | [] => []
  | h :: t => h :: firstDedup (t.filter (fun x => decide (x ≠ h)))
termination_by l => l.length
decreasing_by
  simp only [List.length_cons]
  exact Nat.lt_succ_of_le (List.length_filter_le _ _)

/-! ## Concrete example data used by witnesses and counterexamples -/

/-- Two fields sharing the label "A" (labels carry no uniqueness constraint). -/
def dupLabelData : ExtractedData := ⟨[⟨"A", .str "1"⟩, ⟨"A", .str "2"⟩], []⟩

/-- A table whose single row has more values than the table has headers. -/
def overlongRowData : ExtractedData := ⟨[], [⟨"T", ["H"], [⟨["x", "y"]⟩]⟩]⟩

/-- The spec's export scenario table: headers Item/Qty, rows Pen/3 and Book/1. -/
def invoiceTable : Table := ⟨"Items", ["Item", "Qty"], [⟨["Pen", "3"]⟩, ⟨["Book", "1"]⟩]⟩

/-- The spec's export scenario: field Date=2024-01-01 plus `invoiceTable`. -/
def invoiceData : ExtractedData := ⟨[⟨"Date", .str "2024-01-01"⟩], [invoiceTable]⟩

/-- A table whose single row is one value short of its two headers. -/
def shortTable : Table := ⟨"T", ["H1", "H2"], [⟨["x"]⟩]⟩

/-- Data carrying only `shortTable`. -/
def shortRowData : ExtractedData := ⟨[], [shortTable]⟩

/-- A remote oracle in which every call succeeds. -/
def respAllOk : RemoteResponses := ⟨true, none, [], true, true, none, true, true, none⟩

/-- A reachable state: one uploaded image whose extraction returned
`invoiceData`, with a Google token connected. -/
def stW : AppState :=
  applyConnect (applyExtractOk (applyUpload initState "a" "img") "a" invoiceData) "tok"

/-- The single result held by `stW`. -/
def resultW : ProcessedResult := ⟨"a", "Result 1", "img", invoiceData, .SUCCESS, none⟩

/-- A reachable state with two results. -/
def stTwo : AppState := applyUpload (applyUpload initState "a" "i1") "b" "i2"

/-- The first result of `stTwo`. -/
def resultA : ProcessedResult := ⟨"a", "Result 1", "i1", emptyData, .ANALYZING, none⟩

/-- A reachable state built by upload a, upload b, close a, upload c: the
surviving results "b" and "c" both carry the display name "Result 2". -/
def stDup : AppState :=
  applyUpload (applyCloseTab (applyUpload (applyUpload initState "a" "i1") "b" "i2") "a") "c" "i3"

/-- The second result of `stDup` ("b", named "Result 2"). -/
def resultB : ProcessedResult := ⟨"b", "Result 2", "i2", emptyData, .ANALYZING, none⟩

/-- The third result of `stDup` ("c", also named "Result 2"). -/
def resultC : ProcessedResult := ⟨"c", "Result 2", "i3", emptyData, .ANALYZING, none⟩

/-! ## Header-union lemmas -/

theorem masterUnion_nil (E : List String) : masterUnion E [] = E := rfl

theorem masterUnion_cons (E : List String) (h : String) (t : List String) :
    masterUnion E (h :: t) = masterUnion (if h ∈ E then E else E ++ [h]) t := rfl

/-- The source's incremental union equals: existing headers, then the
first-occurrence deduplication of the not-yet-present local headers. -/
theorem masterUnion_eq (E F : List String) :
    masterUnion E F = E ++ firstDedup (F.filter (fun x => decide (x ∉ E))) := by
  induction F generalizing E with
  | nil => simp [masterUnion_nil, firstDedup]
  | cons h t ih =>
    rw [masterUnion_cons]
    by_cases hmem : h ∈ E
    · rw [if_pos hmem, ih]
      have hfilter : (h :: t).filter (fun x => decide (x ∉ E)) =
          t.filter (fun x => decide (x ∉ E)) := by
        simp [List.filter_cons, hmem]
      rw [hfilter]
    · rw [if_neg hmem, ih]
      have hfilter : (h :: t).filter (fun x => decide (x ∉ E)) =
          h :: t.filter (fun x => decide (x ∉ E)) := by
        simp [List.filter_cons, hmem]
      rw [hfilter, firstDedup]
      have hsplit : t.filter (fun x => decide (x ∉ E ++ [h])) =
          (t.filter (fun x => decide (x ∉ E))).filter (fun x => decide (x ≠ h)) := by
        rw [List.filter_filter]
        apply List.filter_congr
        intro x _
        by_cases h1 : x = h <;> by_cases h2 : x ∈ E <;> simp [h1, h2]
      rw [hsplit]
      simp

theorem firstDedup_of_nodup (F : List String) (hF : F.Nodup) : firstDedup F = F := by
  induction F with
  | nil => rw [firstDedup]
  | cons a t ih =>
    rw [firstDedup]
    have ha : a ∉ t := (List.nodup_cons.mp hF).1
    have htail : t.filter (fun x => decide (x ≠ a)) = t := by
      apply List.filter_eq_self.mpr
      intro x hx
      simp only [decide_eq_true_eq]
      intro hxa
      exact ha (hxa ▸ hx)
    rw [htail, ih (List.nodup_cons.mp hF).2]

theorem filter_not_mem_nil (F : List String) :
    F.filter (fun x => decide (x ∉ ([] : List String))) = F :=
  List.filter_eq_self.mpr (by intro x _; simp)

/-! ## Re-projection lemmas -/

theorem indexOf?_getElem_of_nodup (F : List String) (hF : F.Nodup)
    (i : Nat) (hi : i < F.length) : List.indexOf? F[i] F = some i := by
  have hmem : F[i] ∈ F := List.getElem_mem hi
  have hne : List.indexOf? F[i] F ≠ none := by
    intro hnone
    have hall := List.indexOf?_eq_none_iff.mp hnone
    have := hall _ hmem
    simp at this
  obtain ⟨j, hj⟩ := Option.ne_none_iff_exists'.mp hne
  have hidx := List.indexOf_eq_indexOf? F[i] F
  rw [hj] at hidx
  simp only at hidx
  have hgi := List.indexOf_getElem hF i hi
  rw [hj, hidx.symm, hgi]

/-- With duplicate-free headers and a row of matching length, re-projecting
a row onto its own header list is the identity. -/
theorem reproject_self (F row : List String) (hF : F.Nodup)
    (hlen : row.length = F.length) : reproject F F row = row := by
  apply List.ext_getElem
  · simp [reproject, hlen]
  · intro n h1 h2
    have hn : n < F.length := by simpa [reproject] using h1
    simp only [reproject, List.getElem_map]
    rw [indexOf?_getElem_of_nodup F hF n hn]
    exact List.getD_eq_getElem row "" (by omega)

/-! ## Claim C1 -/

/-- C1 counterexample: the reprojection step with `masterHeaders =
finalHeaders` is NOT the identity on flattened rows for every
`ExtractedData`.  With duplicate field labels (`dupLabelData`), `indexOf`
resolves both copies of column "A" to the first one, replacing the second
column's value; and when a table row carries more values than its table
has headers (`overlongRowData`), the extra values are truncated. -/
theorem c1_counterexample :
    ((["1", "2"] ∈ rowsToAppend dupLabelData) ∧
      reproject (finalHeaders dupLabelData) (finalHeaders dupLabelData)
        ["1", "2"] ≠ ["1", "2"]) ∧
    ((["x", "y"] ∈ rowsToAppend overlongRowData) ∧
      reproject (finalHeaders overlongRowData) (finalHeaders overlongRowData)
        ["x", "y"] ≠ ["x", "y"]) := by
  decide

/-- C1 (amended): for every `ExtractedData` whose flattened header list
`finalHeaders` is duplicate-free and whose primary-table rows carry at most
as many values as the table has headers, the union of the empty remote
header list with `finalHeaders` is `finalHeaders` itself, and re-projecting
every flattened row through `indexOf` over `masterHeaders = finalHeaders`
returns the row unchanged. -/
theorem c1_identity (d : ExtractedData)
    (hnodup : (finalHeaders d).Nodup)
    (hrows : ∀ t ∈ d.tables.take 1, ∀ r ∈ t.rows,
      r.values.length ≤ t.headers.length) :
    masterUnion [] (finalHeaders d) = finalHeaders d ∧
    ∀ row ∈ rowsToAppend d,
      reproject (finalHeaders d) (finalHeaders d) row = row := by
  constructor
  · rw [masterUnion_eq, filter_not_mem_nil, firstDedup_of_nodup _ hnodup]
    simp
  · intro row hrow
    apply reproject_self _ _ hnodup
    cases htab : d.tables with
    | nil =>
      simp only [rowsToAppend, htab, List.mem_singleton] at hrow
      subst hrow
      simp [finalHeaders, htab, globalHeaders, globalValues]
    | cons t ts =>
      simp only [rowsToAppend, htab, List.mem_map] at hrow
      obtain ⟨r, hrmem, rfl⟩ := hrow
      have hle : r.values.length ≤ t.headers.length :=
        hrows t (by simp [htab]) r hrmem
      simp only [finalHeaders, htab, globalHeaders, globalValues, padTo,
        List.length_append, List.length_map, List.length_replicate]
      omega

/-- C1 witness: on the spec's invoice scenario (duplicate-free headers
Date/Item/Qty) the union with no remote headers is the identity and the
first flattened row re-projects to itself. -/
theorem c1_witness :
    masterUnion [] (finalHeaders invoiceData) = finalHeaders invoiceData ∧
    reproject (finalHeaders invoiceData) (finalHeaders invoiceData)
      ["2024-01-01", "Pen", "3"] = ["2024-01-01", "Pen", "3"] := by
  have h := c1_identity invoiceData (by decide) (by decide)
  exact ⟨h.1, h.2 _ (by decide)⟩

/-! ## Claim C2 -/

/-- C2: the reconciled `masterHeaders` list is exactly the existing remote
headers `E`, in their original order and untouched, followed by those
`finalHeaders` entries not already present in `E` (exact string equality),
each appearing once, in first-encounter order (`firstDedup` of the filter
keeps exactly the first occurrence of each new column). -/
theorem c2_header_union (E F : List String) :
    masterUnion E F = E ++ firstDedup (F.filter (fun h => decide (h ∉ E))) :=
  masterUnion_eq E F

/-! ## Claim C3 -/

/-- C3: flattening produces `finalHeaders` = field labels (++ the first
table's headers when a table exists) and `rowsToAppend` = one row per
primary-table row, each the field values followed by the row's values
padded with empty strings to the header count — or the single row of field
values when no table exists.  Tables after the first contribute nothing. -/
theorem c3_flatten (d : ExtractedData) :
    (d.tables = [] →
      finalHeaders d = d.fields.map Field.label ∧
      rowsToAppend d = [d.fields.map (fun f => f.value.toDisplayString)]) ∧
    (∀ t ts, d.tables = t :: ts →
      finalHeaders d = d.fields.map Field.label ++ t.headers ∧
      rowsToAppend d = t.rows.map (fun r =>
        d.fields.map (fun f => f.value.toDisplayString) ++
          (r.values ++ List.replicate (t.headers.length - r.values.length) ""))) := by
  constructor
  · intro h
    constructor <;> simp [finalHeaders, rowsToAppend, globalHeaders, globalValues, h]
  · intro t ts h
    constructor <;>
      simp [finalHeaders, rowsToAppend, globalHeaders, globalValues, padTo, h]

/-- C3 witness: the spec's scenario — field Date=2024-01-01 and a table
with headers Item/Qty and rows Pen/3, Book/1 — flattens to headers
Date/Item/Qty and two rows. -/
theorem c3_witness :
    finalHeaders invoiceData = ["Date", "Item", "Qty"] ∧
    rowsToAppend invoiceData =
      [["2024-01-01", "Pen", "3"], ["2024-01-01", "Book", "1"]] := by
  have h := (c3_flatten invoiceData).2 invoiceTable [] rfl
  exact ⟨h.1.trans (by decide), h.2.trans (by decide)⟩

/-! ## Claim C5 -/

/-- C5 counterexample: the CSV export does not pad short rows.  On a table
with two headers and a one-value row, the spreadsheet flattening pads the
row to `["x", ""]`, but the CSV data row stays `["x"]` — one cell short of
the two CSV header columns, contradicting the claim that both export paths
pad to the header length. -/
theorem c5_counterexample :
    rowsToAppend shortRowData = [["x", ""]] ∧
    csvRows shortRowData = [["x"]] ∧
    (csvHeaders shortRowData).length = 2 := by
  decide

/-- C5 (amended): the spreadsheet sync flattening pads each short table row
with empty strings up to the table's header count (never rejecting it),
while the CSV export emits each row's values verbatim, without padding —
a short row yields a short CSV data row, though it is not rejected
either. -/
theorem c5_padding (d : ExtractedData) (t : Table) (ts : List Table)
    (h : d.tables = t :: ts) :
    (∀ r ∈ t.rows,
      (globalValues d ++ padTo r.values t.headers.length) ∈ rowsToAppend d ∧
      t.headers.length ≤ (padTo r.values t.headers.length).length) ∧
    csvRows d = t.rows.map (fun r =>
      d.fields.map (fun f => f.value.toDisplayString) ++ r.values) := by
  constructor
  · intro r hr
    constructor
    · simp only [rowsToAppend, h]
      exact List.mem_map_of_mem _ hr
    · simp only [padTo, List.length_append, List.length_replicate]
      omega
  · simp [csvRows, h]

/-- C5 witness: on the short-row table, the padded row `["x", ""]` is what
the sync engine appends, its length covers both headers, and the CSV rows
are the unpadded `[["x"]]`. -/
theorem c5_witness :
    ((globalValues shortRowData ++ padTo (["x"]) shortTable.headers.length) ∈
      rowsToAppend shortRowData) ∧
    shortTable.headers.length ≤ (padTo (["x"]) shortTable.headers.length).length ∧
    csvRows shortRowData = [["x"]] := by
  have h := c5_padding shortRowData shortTable [] rfl
  have h1 := h.1 ⟨["x"]⟩ (by decide)
  exact ⟨h1.1, h1.2, h.2.trans (by decide)⟩

/-! ## Claim C9 -/

/-- C9 counterexample: `exportToGoogleSheet` also raises an error when the
spreadsheet id (or token) is missing, before any remote call is made —
even with every remote response successful — so the metadata fetch and the
append call are not the only error sources. -/
theorem c9_counterexample :
    (exportToGoogleSheet "" "tok" invoiceData "Result 1" respAllOk =
      .error "Missing Spreadsheet ID or Access Token") ∧
    respAllOk.metaOk = true ∧ respAllOk.appendOk = true :=
  ⟨rfl, rfl, rfl⟩

/-- C9 (amended): `exportToGoogleSheet` succeeds exactly when the
credentials are non-empty, the metadata fetch succeeds, and the append
call succeeds; the create-sheet batchUpdate response and the header-row
PUT response are never inspected — changing them cannot alter the run's
outcome in any way. -/
theorem c9_error_surface (spreadsheetId accessToken : String)
    (data : ExtractedData) (sheetName : String) (resp : RemoteResponses) :
    ((exportToGoogleSheet spreadsheetId accessToken data sheetName resp).isOk =
      (decide (¬(spreadsheetId = "" ∨ accessToken = "")) &&
        resp.metaOk && resp.appendOk)) ∧
    (∀ b1 b2, exportToGoogleSheet spreadsheetId accessToken data sheetName
        { resp with addSheetOk := b1, putOk := b2 } =
      exportToGoogleSheet spreadsheetId accessToken data sheetName resp) := by
  constructor
  · by_cases hc : spreadsheetId = "" ∨ accessToken = ""
    · simp [exportToGoogleSheet, hc, Except.isOk, Except.toBool]
    · by_cases hm : resp.metaOk <;> by_cases ha : resp.appendOk <;>
        simp [exportToGoogleSheet, hc, hm, ha, Except.isOk, Except.toBool]
  · intro b1 b2
    rfl

/-! ## Session-store lemmas -/

theorem updateResult_results (id : String) (f : ProcessedResult → ProcessedResult)
    (st : AppState) :
    (updateResult id f st).results =
      st.results.map (fun r => if r.id = id then f r else r) := rfl

theorem updateResult_active (id : String) (f : ProcessedResult → ProcessedResult)
    (st : AppState) :
    (updateResult id f st).activeResultId = st.activeResultId := rfl

theorem updateResult_ids (id : String) (f : ProcessedResult → ProcessedResult)
    (st : AppState) (hf : ∀ r, (f r).id = r.id) :
    (updateResult id f st).results.map ProcessedResult.id =
      st.results.map ProcessedResult.id := by
  simp only [updateResult_results, List.map_map]
  apply List.map_congr_left
  intro r _
  by_cases h : r.id = id <;> simp [Function.comp, h, hf]

theorem applyCloseTab_results (st : AppState) (id : String) :
    (applyCloseTab st id).results =
      st.results.filter (fun r => decide (r.id ≠ id)) := rfl

theorem applyCloseTab_active (st : AppState) (id : String) :
    (applyCloseTab st id).activeResultId =
      if st.activeResultId = some id then
        match (st.results.filter (fun r => decide (r.id ≠ id))).getLast? with
        | some last => some last.id
        | none => none
      else st.activeResultId := rfl

theorem applyExportFail_results (st : AppState) (id msg : String) :
    (applyExportFail st id msg).results =
      (updateResult id (fun r => { r with status := .SUCCESS }) st).results := by
  unfold applyExportFail
  by_cases h : isAuthFailure msg <;> simp [h]

theorem applyExportFail_active (st : AppState) (id msg : String) :
    (applyExportFail st id msg).activeResultId = st.activeResultId := by
  unfold applyExportFail
  by_cases h : isAuthFailure msg <;> simp [h, updateResult_active]

theorem hasData_ne_empty (r : ProcessedResult) (h : hasData r = true) :
    r.data ≠ emptyData := by
  intro he
  rw [hasData, he] at h
  simp [emptyData] at h

/-! ## Invariant preservation -/

theorem stateInv_of_eq {st1 st2 : AppState} (h1 : st2.results = st1.results)
    (h2 : st2.activeResultId = st1.activeResultId) (h : StateInv st1) :
    StateInv st2 := by
  obtain ⟨a, b, c⟩ := h
  refine ⟨by rw [h1]; exact a, ?_, ?_⟩
  · intro i hi
    rw [h1]
    exact b i (h2 ▸ hi)
  · intro r hr
    rw [h1] at hr
    exact c r hr

theorem stateInv_updateResult (st : AppState) (id : String)
    (f : ProcessedResult → ProcessedResult)
    (hf : ∀ r, (f r).id = r.id)
    (hinv : StateInv st)
    (hstatus : ∀ r ∈ st.results, r.id = id →
      ((f r).status = .ANALYZING ∨ (f r).status = .ERROR ∨ (f r).status = .IDLE) →
      (f r).data = emptyData) :
    StateInv (updateResult id f st) := by
  obtain ⟨hnd, hact, hdat⟩ := hinv
  refine ⟨?_, ?_, ?_⟩
  · rw [updateResult_ids id f st hf]
    exact hnd
  · intro i hi
    rw [updateResult_ids id f st hf]
    exact hact i hi
  · intro r' hr'
    rw [updateResult_results] at hr'
    obtain ⟨r, hr, rfl⟩ := List.mem_map.mp hr'
    by_cases h : r.id = id
    · rw [if_pos h]
      exact hstatus r hr h
    · rw [if_neg h]
      exact hdat r hr

theorem stateInv_init : StateInv initState := by
  refine ⟨List.nodup_nil, ?_, ?_⟩
  · intro i hi
    simp [initState] at hi
  · intro r hr
    simp [initState] at hr

theorem stateInv_step {st st' : AppState} (hinv : StateInv st)
    (hstep : Step st st') : StateInv st' := by
  cases hstep with
  | upload newId image hfresh =>
    obtain ⟨hnd, hact, hdat⟩ := hinv
    refine ⟨?_, ?_, ?_⟩
    · show ((st.results ++ [_]).map ProcessedResult.id).Nodup
      rw [List.map_append, List.nodup_append]
      refine ⟨hnd, by simp, ?_⟩
      intro x hx hx2
      simp only [List.map_cons, List.map_nil, List.mem_singleton] at hx2
      exact hfresh (hx2 ▸ hx)
    · intro i hi
      simp only [applyUpload] at hi ⊢
      rw [Option.some_inj] at hi
      subst hi
      simp
    · intro r hr
      simp only [applyUpload, List.mem_append, List.mem_singleton] at hr
      cases hr with
      | inl h => exact hdat r h
      | inr h =>
        subst h
        intro _
        rfl
  | extractOk id d hpending =>
    show StateInv (updateResult id (fun r => { r with data := d, status := .SUCCESS }) st)
    refine stateInv_updateResult st id _ (fun r => rfl) hinv ?_
    intro r hr hid hstat
    rcases hstat with h | h | h <;> exact absurd h (by simp)
  | extractErr id msg hpending =>
    show StateInv
      (updateResult id (fun r => { r with status := .ERROR, errorMessage := some msg }) st)
    refine stateInv_updateResult st id _ (fun r => rfl) hinv ?_
    intro r hr hid hstat
    exact hinv.2.2 r hr (Or.inl (hpending r hr hid))
  | close id =>
    obtain ⟨hnd, hact, hdat⟩ := hinv
    refine ⟨?_, ?_, ?_⟩
    · rw [applyCloseTab_results]
      exact List.Nodup.sublist
        (List.Sublist.map ProcessedResult.id (List.filter_sublist st.results)) hnd
    · intro i hi
      rw [applyCloseTab_active] at hi
      rw [applyCloseTab_results]
      by_cases hA : st.activeResultId = some id
      · rw [if_pos hA] at hi
        cases hL : (st.results.filter (fun r => decide (r.id ≠ id))).getLast? with
        | some last =>
          rw [hL] at hi
          simp only [Option.some_inj] at hi
          subst hi
          exact List.mem_map_of_mem _ (List.mem_of_mem_getLast? hL)
        | none =>
          rw [hL] at hi
          simp at hi
      · rw [if_neg hA] at hi
        obtain ⟨r, hr, hrid⟩ := List.mem_map.mp (hact i hi)
        rw [← hrid]
        apply List.mem_map_of_mem
        rw [List.mem_filter]
        refine ⟨hr, ?_⟩
        simp only [decide_eq_true_eq]
        intro hrid2
        rw [hrid.symm.trans hrid2] at hi
        exact hA hi
    · intro r hr
      rw [applyCloseTab_results] at hr
      exact hdat r (List.mem_of_mem_filter hr)
  | rename id newName =>
    show StateInv (updateResult id (fun r => { r with name := newName }) st)
    refine stateInv_updateResult st id _ (fun r => rfl) hinv ?_
    intro r hr hid hstat
    exact hinv.2.2 r hr hstat
  | select id hmem =>
    obtain ⟨hnd, hact, hdat⟩ := hinv
    refine ⟨hnd, ?_, hdat⟩
    intro i hi
    simp only [applySelect, Option.some_inj] at hi
    exact hi ▸ hmem
  | edit id d hactive hdata =>
    show StateInv (updateResult id (fun r => { r with data := d }) st)
    refine stateInv_updateResult st id _ (fun r => rfl) hinv ?_
    intro r hr hid hstat
    exact absurd (hinv.2.2 r hr hstat) (hasData_ne_empty r (hdata r hr hid))
  | tryAgain id herr =>
    show StateInv (updateResult id (fun r => { r with status := .IDLE }) st)
    refine stateInv_updateResult st id _ (fun r => rfl) hinv ?_
    intro r hr hid hstat
    exact hinv.2.2 r hr (Or.inr (Or.inl (herr r hr hid)))
  | connect token =>
    obtain ⟨hnd, hact, hdat⟩ := hinv
    exact ⟨hnd, hact, hdat⟩
  | exportStart id htok hactive hguard =>
    show StateInv (updateResult id (fun r => { r with status := .EXPORTING }) st)
    refine stateInv_updateResult st id _ (fun r => rfl) hinv ?_
    intro r hr hid hstat
    rcases hstat with h | h | h <;> exact absurd h (by simp)
  | exportOk id =>
    show StateInv (updateResult id (fun r => { r with status := .SUCCESS }) st)
    refine stateInv_updateResult st id _ (fun r => rfl) hinv ?_
    intro r hr hid hstat
    rcases hstat with h | h | h <;> exact absurd h (by simp)
  | exportFail id msg =>
    refine stateInv_of_eq (applyExportFail_results st id msg)
      (applyExportFail_active st id msg) ?_
    show StateInv (updateResult id (fun r => { r with status := .SUCCESS }) st)
    refine stateInv_updateResult st id _ (fun r => rfl) hinv ?_
    intro r hr hid hstat
    rcases hstat with h | h | h <;> exact absurd h (by simp)

theorem reachable_inv (st : AppState) (h : Reachable st) : StateInv st := by
  induction h with
  | init => exact stateInv_init
  | step _ hstep ih => exact stateInv_step ih hstep

theorem status_success_of_hasData (st : AppState) (hinv : StateInv st)
    (r : ProcessedResult) (hr : r ∈ st.results) (hdata : hasData r = true)
    (hne : r.status ≠ .EXPORTING) : r.status = .SUCCESS := by
  have hd := hasData_ne_empty r hdata
  cases h : r.status with
  | ANALYZING => exact absurd (hinv.2.2 r hr (Or.inl h)) hd
  | ERROR => exact absurd (hinv.2.2 r hr (Or.inr (Or.inl h))) hd
  | IDLE => exact absurd (hinv.2.2 r hr (Or.inr (Or.inr h))) hd
  | EXPORTING => exact absurd h hne
  | SUCCESS => rfl

/-! ## Reachability of the concrete example states -/

theorem reachable_stW : Reachable stW := by
  have h1 : Reachable (applyUpload initState "a" "img") :=
    Reachable.step Reachable.init (Step.upload initState "a" "img" (by decide))
  have h2 : Reachable (applyExtractOk (applyUpload initState "a" "img") "a" invoiceData) :=
    Reachable.step h1 (Step.extractOk _ "a" invoiceData (by decide))
  exact Reachable.step h2 (Step.connect _ "tok")

theorem reachable_stDup : Reachable stDup := by
  have h1 : Reachable (applyUpload initState "a" "i1") :=
    Reachable.step Reachable.init (Step.upload initState "a" "i1" (by decide))
  have h2 : Reachable stTwo :=
    Reachable.step h1 (Step.upload _ "b" "i2" (by decide))
  have h3 : Reachable (applyCloseTab stTwo "a") :=
    Reachable.step h2 (Step.close _ "a")
  exact Reachable.step h3 (Step.upload _ "c" "i3" (by decide))

theorem filter_active_len (o : Option String) {l : List ProcessedResult}
    (hnd : (l.map ProcessedResult.id).Nodup) :
    (l.filter (fun r => decide (o = some r.id))).length ≤ 1 := by
  induction l with
  | nil => simp
  | cons r t ih =>
    simp only [List.map_cons, List.nodup_cons] at hnd
    rw [List.filter_cons]
    by_cases h : decide (o = some r.id) = true
    · rw [if_pos h]
      have ho : o = some r.id := of_decide_eq_true h
      have hnil : t.filter (fun r0 => decide (o = some r0.id)) = [] := by
        rw [List.filter_eq_nil_iff]
        intro x hx hbeq
        have hox : o = some x.id := of_decide_eq_true hbeq
        have hxr : r.id = x.id := Option.some_inj.mp (ho.symm.trans hox)
        exact hnd.1 (hxr ▸ List.mem_map_of_mem ProcessedResult.id hx)
      rw [hnil]
      simp
    · rw [if_neg h]
      exact ih hnd.2

/-! ## Claim C4 -/

/-- C4: from any reachable state, for any result from which an export can
be initiated (it has data, is not already exporting, is the active result,
and a token is connected), running the export-start mutation followed by
the export-failure handler leaves that result with its pre-export status
(necessarily `SUCCESS`, the only status an exportable result can have) and
with its data, name, image and error message unchanged. -/
theorem c4_export_failure_reverts (st : AppState) (hre : Reachable st)
    (r : ProcessedResult) (hr : r ∈ st.results)
    (hdata : hasData r = true) (hst : r.status ≠ .EXPORTING)
    (hactive : st.activeResultId = some r.id)
    (htok : st.googleAccessToken ≠ none) (msg : String) :
    ∀ r' ∈ (applyExportFail (applyExportStart st r.id) r.id msg).results,
      r'.id = r.id →
      r'.status = r.status ∧ r'.data = r.data ∧ r'.name = r.name ∧
        r'.image = r.image ∧ r'.errorMessage = r.errorMessage := by
  have hinv := reachable_inv st hre
  have hS : r.status = .SUCCESS := status_success_of_hasData st hinv r hr hdata hst
  intro r' hr' hid
  rw [applyExportFail_results] at hr'
  simp only [updateResult_results, applyExportStart, List.map_map, List.mem_map] at hr'
  obtain ⟨r0, hr0, rfl⟩ := hr'
  by_cases h0 : r0.id = r.id
  · have hr0r : r0 = r := List.inj_on_of_nodup_map hinv.1 hr0 hr h0
    subst hr0r
    refine ⟨?_, ?_, ?_, ?_, ?_⟩ <;> simp [Function.comp, hS]
  · exfalso
    simp only [Function.comp, if_neg h0] at hid
    exact h0 hid

/-- C4 witness: in the concrete reachable state `stW` (one successful
result "a" holding `invoiceData`, token connected), a failed export leaves
the result exactly as it was before the export started. -/
theorem c4_witness :
    (resultW ∈ (applyExportFail (applyExportStart stW resultW.id) resultW.id "boom").results) ∧
    resultW.status = AppStatus.SUCCESS := by
  have h := c4_export_failure_reverts stW reachable_stW resultW (by decide) (by decide)
    (by decide) (by decide) (by decide) "boom" resultW (by decide) (by decide)
  exact ⟨by decide, h.1.trans (by decide)⟩

/-! ## Claim C6 -/

/-- C6: whenever the export-failure message matches the auth heuristic
(contains "401" or "unauthorized"), the failure handler clears the stored
access token, the re-authentication prompt is among the raised alerts, and
every result's `ExtractedData` survives unchanged (the embedding of the
sync engine is pure: `exportToGoogleSheet` cannot mutate its argument, and
the handler only touches `status`). -/
theorem c6_auth_failure (st : AppState) (id msg : String)
    (hauth : isAuthFailure msg = true) :
    (applyExportFail st id msg).googleAccessToken = none ∧
    ("Session expired. Please connect again." ∈ exportFailAlerts msg) ∧
    ∀ r ∈ st.results, ∃ r' ∈ (applyExportFail st id msg).results,
      r'.id = r.id ∧ r'.data = r.data := by
  refine ⟨?_, ?_, ?_⟩
  · simp [applyExportFail, hauth]
  · simp [exportFailAlerts, hauth]
  · intro r hr
    refine ⟨if r.id = id then { r with status := .SUCCESS } else r, ?_, ?_, ?_⟩
    · rw [applyExportFail_results, updateResult_results]
      exact List.mem_map.mpr ⟨r, hr, rfl⟩
    · by_cases h : r.id = id <;> simp [h]
    · by_cases h : r.id = id <;> simp [h]

/-- C6 witness: on `stW` and the message "Request failed: 401", the token
is cleared, the re-authentication prompt is raised, and result "a" keeps
its `invoiceData`. -/
theorem c6_witness :
    (applyExportFail stW "a" "Request failed: 401").googleAccessToken = none ∧
    ("Session expired. Please connect again." ∈
      exportFailAlerts "Request failed: 401") := by
  have h := c6_auth_failure stW "a" "Request failed: 401" (by decide)
  exact ⟨h.1, h.2.1⟩

/-! ## Claim C7 -/

/-- C7: `closeResult(id)` removes every result carrying that id; when the
closed result was active and the collection stays non-empty the new active
result is the last of the remaining order; when the collection becomes
empty the active id becomes `none`; and when the closed result was not
active the active id is unchanged. -/
theorem c7_close (st : AppState) (id : String) :
    ((applyCloseTab st id).results =
      st.results.filter (fun r => decide (r.id ≠ id))) ∧
    (∀ r ∈ (applyCloseTab st id).results, r.id ≠ id) ∧
    (st.activeResultId = some id →
      (∀ last, (st.results.filter (fun r => decide (r.id ≠ id))).getLast? = some last →
        (applyCloseTab st id).activeResultId = some last.id) ∧
      ((st.results.filter (fun r => decide (r.id ≠ id))) = [] →
        (applyCloseTab st id).activeResultId = none)) ∧
    (st.activeResultId ≠ some id →
      (applyCloseTab st id).activeResultId = st.activeResultId) := by
  refine ⟨rfl, ?_, ?_, ?_⟩
  · intro r hr
    rw [applyCloseTab_results] at hr
    have := (List.mem_filter.mp hr).2
    simpa using this
  · intro hA
    constructor
    · intro last hlast
      rw [applyCloseTab_active, if_pos hA, hlast]
    · intro hnil
      rw [applyCloseTab_active, if_pos hA, hnil]
      rfl
  · intro hA
    rw [applyCloseTab_active, if_neg hA]

/-- C7 witness: in `stTwo` (results "a" then "b", active "b"), closing the
active tab "b" re-activates "a", the last remaining result. -/
theorem c7_witness :
    (applyCloseTab stTwo "b").activeResultId = some resultA.id :=
  ((c7_close stTwo "b").2.2.1 (by decide)).1 resultA (by decide)

/-! ## Claim C8 -/

/-- C8: in every state reachable from the empty initial state, at most one
result matches the active id (so at most one result is active), and the
active id, when set, names a result present in the collection. -/
theorem c8_invariant (st : AppState) (hre : Reachable st) :
    ((st.results.filter (fun r => decide (st.activeResultId = some r.id))).length ≤ 1) ∧
    (∀ i, st.activeResultId = some i → i ∈ st.results.map ProcessedResult.id) := by
  have hinv := reachable_inv st hre
  exact ⟨filter_active_len st.activeResultId hinv.1, hinv.2.1⟩

/-- C8 witness: in the reachable state `stW`, exactly one result matches
the active id and that id ("a") is present in the collection. -/
theorem c8_witness :
    ((stW.results.filter (fun r => decide (stW.activeResultId = some r.id))).length ≤ 1) ∧
    "a" ∈ stW.results.map ProcessedResult.id := by
  have h := c8_invariant stW reachable_stW
  exact ⟨h.1, h.2 "a" (by decide)⟩

/-! ## Claim C10 -/

/-- C10: `createResult` names the new result "Result N" with N = current
collection size + 1 (a size, not a monotone counter); the concrete trace
upload "a", upload "b", close "a", upload "c" is reachable and leaves two
coexisting results both named "Result 2"; and the export sheet name is the
active result's name, so the active duplicate targets sheet "Result 2". -/
theorem c10_duplicate_names :
    (∀ st newId image, ∃ r ∈ (applyUpload st newId image).results,
        r.id = newId ∧ r.name = "Result " ++ toString (st.results.length + 1)) ∧
    Reachable stDup ∧
    (∃ r1 ∈ stDup.results, ∃ r2 ∈ stDup.results, r1.id ≠ r2.id ∧ r1.name = r2.name) ∧
    activeSheetName stDup = some "Result 2" := by
  refine ⟨?_, reachable_stDup,
    ⟨resultB, by decide, resultC, by decide, by decide, rfl⟩, by decide⟩
  intro st newId image
  exact ⟨_, List.mem_append_right _ (List.mem_singleton_self _), rfl, rfl⟩

end FACU
